import Mathlib

/-!
Verification development for the contra-youtube-recommender core.

The Python modules `backend/embeddings/distance.py`, `backend/embeddings/encoder.py`,
`backend/youtube/sampler.py` and `backend/contra/algorithm.py` are shallowly embedded
below.  Floating-point values are modelled as real numbers, numpy vectors of a fixed
dimension `d` as functions `Fin d → ℝ`, and collections of vectors as lists.  Stateful
code (the embedding cache) is modelled by explicit state passing together with a log of
the calls made to the underlying embedding model.
-/

open Real

namespace DistanceCalculator

/-- `np.dot` on two vectors of dimension `d`. -/
noncomputable def dotp {d : ℕ} (a b : Fin d → ℝ) : ℝ := ∑ i, a i * b i

/-- `np.linalg.norm`: the Euclidean norm, square root of the sum of squares. -/
noncomputable def npNorm {d : ℕ} (a : Fin d → ℝ) : ℝ := Real.sqrt (dotp a a)

/-- `DistanceCalculator.cosine_similarity` (distance.py, lines 16-36): returns 0.0 when
either operand has zero norm, otherwise the dot product divided by the norm product. -/
noncomputable def cosine_similarity {d : ℕ} (a b : Fin d → ℝ) : ℝ :=
  if npNorm a = 0 ∨ npNorm b = 0 then 0
  else dotp a b / (npNorm a * npNorm b)

/-- `DistanceCalculator.cosine_distance` (distance.py, lines 38-51). -/
noncomputable def cosine_distance {d : ℕ} (a b : Fin d → ℝ) : ℝ :=
  1 - cosine_similarity a b

/-- `np.clip(x, -1.0, 1.0)`. -/
noncomputable def clip1 (x : ℝ) : ℝ := min 1 (max x (-1))

/-- `DistanceCalculator.angle_between_vectors` (distance.py, lines 67-88): clamp the
similarity to `[-1, 1]`, take the arccosine and convert from radians to degrees. -/
noncomputable def angle_between_vectors {d : ℕ} (a b : Fin d → ℝ) : ℝ :=
  Real.arccos (clip1 (cosine_similarity a b)) * 180 / Real.pi

end DistanceCalculator

namespace DistanceCalculator

lemma dotp_self_nonneg {d : ℕ} (a : Fin d → ℝ) : 0 ≤ dotp a a :=
  Finset.sum_nonneg fun i _ => mul_self_nonneg (a i)

lemma npNorm_nonneg {d : ℕ} (a : Fin d → ℝ) : 0 ≤ npNorm a := Real.sqrt_nonneg _

lemma npNorm_mul_npNorm {d : ℕ} (a b : Fin d → ℝ) :
    npNorm a * npNorm b = Real.sqrt (dotp a a * dotp b b) := by
  unfold npNorm
  rw [← Real.sqrt_mul (dotp_self_nonneg a)]

/-- Cauchy-Schwarz for the embedded dot product. -/
lemma abs_dotp_le {d : ℕ} (a b : Fin d → ℝ) : |dotp a b| ≤ npNorm a * npNorm b := by
  rw [npNorm_mul_npNorm]
  have h := Finset.sum_mul_sq_le_sq_mul_sq Finset.univ a b
  have hsq : (dotp a b) ^ 2 ≤ dotp a a * dotp b b := by
    unfold dotp
    calc (∑ i, a i * b i) ^ 2 ≤ (∑ i, a i ^ 2) * ∑ i, b i ^ 2 := h
    _ = (∑ i, a i * a i) * ∑ i, b i * b i := by simp [sq]
  have habs : |dotp a b| = Real.sqrt ((dotp a b) ^ 2) := by
    rw [Real.sqrt_sq_eq_abs]
  rw [habs]
  exact Real.sqrt_le_sqrt hsq

lemma cosine_similarity_le_one {d : ℕ} (a b : Fin d → ℝ) :
    cosine_similarity a b ≤ 1 := by
  unfold cosine_similarity
  split
  · norm_num
  · rename_i h
    push_neg at h
    have ha : 0 < npNorm a := lt_of_le_of_ne (npNorm_nonneg a) (Ne.symm h.1)
    have hb : 0 < npNorm b := lt_of_le_of_ne (npNorm_nonneg b) (Ne.symm h.2)
    rw [div_le_one (by positivity)]
    calc dotp a b ≤ |dotp a b| := le_abs_self _
    _ ≤ npNorm a * npNorm b := abs_dotp_le a b

lemma neg_one_le_cosine_similarity {d : ℕ} (a b : Fin d → ℝ) :
    -1 ≤ cosine_similarity a b := by
  unfold cosine_similarity
  split
  · norm_num
  · rename_i h
    push_neg at h
    have ha : 0 < npNorm a := lt_of_le_of_ne (npNorm_nonneg a) (Ne.symm h.1)
    have hb : 0 < npNorm b := lt_of_le_of_ne (npNorm_nonneg b) (Ne.symm h.2)
    rw [neg_le, ← neg_div, div_le_one (by positivity)]
    calc -dotp a b ≤ |dotp a b| := neg_le_abs _
    _ ≤ npNorm a * npNorm b := abs_dotp_le a b

end DistanceCalculator

open DistanceCalculator in
/-- C4: for every pair of equal-dimension vectors where one operand has zero norm,
`cosine_similarity` returns exactly 0 (a defined degenerate case, never a division
error); in particular the zero vector against any vector yields similarity 0. -/
theorem C4_cosine_similarity_zero_norm {d : ℕ} (a b : Fin d → ℝ)
    (h : npNorm a = 0 ∨ npNorm b = 0) :
    cosine_similarity a b = 0 := by
  unfold cosine_similarity
  exact if_pos h

open DistanceCalculator in
/-- Witness for C4: the 2-dimensional zero vector against the non-zero vector (3, 4). -/
theorem C4_witness :
    (npNorm (fun _ : Fin 2 => (0:ℝ)) = 0 ∨ npNorm ![(3:ℝ), 4] = 0) ∧
      cosine_similarity (fun _ : Fin 2 => (0:ℝ)) ![(3:ℝ), 4] = 0 := by
  have h : npNorm (fun _ : Fin 2 => (0:ℝ)) = 0 ∨ npNorm ![(3:ℝ), 4] = 0 := by
    left
    unfold npNorm dotp
    simp
  exact ⟨h, C4_cosine_similarity_zero_norm _ _ h⟩

open DistanceCalculator in
/-- C5: for all non-zero equal-dimension vectors, `cosine_distance` equals
`1 - cosine_similarity` exactly, and lies in the nominal range `[0, 2]`. -/
theorem C5_cosine_distance_eq_one_sub_similarity {d : ℕ} (a b : Fin d → ℝ)
    (ha : npNorm a ≠ 0) (hb : npNorm b ≠ 0) :
    cosine_distance a b = 1 - cosine_similarity a b ∧
      0 ≤ cosine_distance a b ∧ cosine_distance a b ≤ 2 := by
  refine ⟨rfl, ?_, ?_⟩
  · unfold cosine_distance
    have := cosine_similarity_le_one a b
    linarith
  · unfold cosine_distance
    have := neg_one_le_cosine_similarity a b
    linarith

open DistanceCalculator in
/-- Witness for C5: the non-zero 2-dimensional vectors (1, 0) and (0, 1). -/
theorem C5_witness :
    (npNorm ![(1:ℝ), 0] ≠ 0 ∧ npNorm ![(0:ℝ), 1] ≠ 0) ∧
      (cosine_distance ![(1:ℝ), 0] ![(0:ℝ), 1] =
          1 - cosine_similarity ![(1:ℝ), 0] ![(0:ℝ), 1] ∧
        0 ≤ cosine_distance ![(1:ℝ), 0] ![(0:ℝ), 1] ∧
        cosine_distance ![(1:ℝ), 0] ![(0:ℝ), 1] ≤ 2) := by
  have ha : npNorm ![(1:ℝ), 0] = 1 := by
    unfold npNorm dotp
    rw [Fin.sum_univ_two]
    norm_num
  have hb : npNorm ![(0:ℝ), 1] = 1 := by
    unfold npNorm dotp
    rw [Fin.sum_univ_two]
    norm_num
  refine ⟨⟨by rw [ha]; norm_num, by rw [hb]; norm_num⟩, ?_⟩
  exact C5_cosine_distance_eq_one_sub_similarity _ _
    (by rw [ha]; norm_num) (by rw [hb]; norm_num)

namespace ContraFeedGenerator

open DistanceCalculator

/-- The five-band relationship classification from
`ContraFeedGenerator.compare_videos` (algorithm.py, lines 263-273). -/
noncomputable def classify_relationship (angle : ℝ) : String :=
  if angle < 30 then "very_similar"
  else if angle < 60 then "similar"
  else if angle < 120 then "different"
  else if angle < 150 then "opposite"
  else "diametrically_opposite"

/-- The comparison core of `ContraFeedGenerator.compare_videos` (algorithm.py,
lines 253-273), given the two already-computed embeddings: the relationship is
classified from the angle between the two vectors.  Metadata fetching and text
embedding are external collaborators and are abstracted into the two vectors. -/
noncomputable def compare_videos_relationship {d : ℕ} (emb1 emb2 : Fin d → ℝ) : String :=
  classify_relationship (angle_between_vectors emb1 emb2)

lemma similarity_orthogonal :
    cosine_similarity ![(1:ℝ), 0] ![(0:ℝ), 1] = 0 := by
  unfold cosine_similarity npNorm dotp
  rw [Fin.sum_univ_two, Fin.sum_univ_two, Fin.sum_univ_two]
  norm_num

lemma angle_orthogonal :
    angle_between_vectors ![(1:ℝ), 0] ![(0:ℝ), 1] = 90 := by
  unfold angle_between_vectors clip1
  rw [similarity_orthogonal]
  have h1 : max (0:ℝ) (-1) = 0 := by norm_num
  have h2 : min (1:ℝ) 0 = 0 := by norm_num
  rw [h1, h2, Real.arccos_zero]
  field_simp
  ring

lemma similarity_opposite :
    cosine_similarity ![(1:ℝ), 0] ![(-1:ℝ), 0] = -1 := by
  unfold cosine_similarity npNorm dotp
  rw [Fin.sum_univ_two, Fin.sum_univ_two, Fin.sum_univ_two]
  norm_num

lemma angle_opposite :
    angle_between_vectors ![(1:ℝ), 0] ![(-1:ℝ), 0] = 180 := by
  unfold angle_between_vectors clip1
  rw [similarity_opposite]
  have h1 : max (-1:ℝ) (-1) = -1 := by norm_num
  have h2 : min (1:ℝ) (-1) = -1 := by norm_num
  rw [h1, h2, Real.arccos_neg_one]
  field_simp

end ContraFeedGenerator

open DistanceCalculator ContraFeedGenerator in
/-- C6: the pairwise-comparison entry point classifies the angle into exactly five
ordered bands (< 30 very_similar, < 60 similar, < 120 different, < 150 opposite,
otherwise diametrically_opposite); orthogonal unit vectors (similarity 0, angle 90)
classify as "different" and opposite unit vectors (similarity -1, angle 180) as
"diametrically_opposite". -/
theorem C6_five_band_classification :
    (∀ angle : ℝ,
      (angle < 30 → classify_relationship angle = "very_similar") ∧
      (30 ≤ angle → angle < 60 → classify_relationship angle = "similar") ∧
      (60 ≤ angle → angle < 120 → classify_relationship angle = "different") ∧
      (120 ≤ angle → angle < 150 → classify_relationship angle = "opposite") ∧
      (150 ≤ angle → classify_relationship angle = "diametrically_opposite")) ∧
    cosine_similarity ![(1:ℝ), 0] ![(0:ℝ), 1] = 0 ∧
    angle_between_vectors ![(1:ℝ), 0] ![(0:ℝ), 1] = 90 ∧
    compare_videos_relationship ![(1:ℝ), 0] ![(0:ℝ), 1] = "different" ∧
    cosine_similarity ![(1:ℝ), 0] ![(-1:ℝ), 0] = -1 ∧
    angle_between_vectors ![(1:ℝ), 0] ![(-1:ℝ), 0] = 180 ∧
    compare_videos_relationship ![(1:ℝ), 0] ![(-1:ℝ), 0] = "diametrically_opposite" := by
  refine ⟨?_, similarity_orthogonal, angle_orthogonal, ?_, similarity_opposite,
    angle_opposite, ?_⟩
  · intro angle
    refine ⟨?_, ?_, ?_, ?_, ?_⟩ <;> intros <;> unfold classify_relationship
    · rw [if_pos (by linarith)]
    · rw [if_neg (by linarith), if_pos (by linarith)]
    · rw [if_neg (by linarith), if_neg (by linarith), if_pos (by linarith)]
    · rw [if_neg (by linarith), if_neg (by linarith), if_neg (by linarith),
        if_pos (by linarith)]
    · rw [if_neg (by linarith), if_neg (by linarith), if_neg (by linarith),
        if_neg (by linarith)]
  · unfold compare_videos_relationship
    rw [angle_orthogonal]
    unfold classify_relationship
    norm_num
  · unfold compare_videos_relationship
    rw [angle_opposite]
    unfold classify_relationship
    norm_num

open ContraFeedGenerator in
/-- Witness for C6: the band hypotheses discharged at the concrete angle 45, which
classifies as "similar". -/
theorem C6_witness :
    ((30:ℝ) ≤ 45 ∧ (45:ℝ) < 60) ∧ classify_relationship 45 = "similar" :=
  ⟨⟨by norm_num, by norm_num⟩,
    (C6_five_band_classification.1 45).2.1 (by norm_num) (by norm_num)⟩

namespace DistanceCalculator

/-- `np.mean` of a list of reals: sum divided by length (used on non-empty lists). -/
noncomputable def avgList (l : List ℝ) : ℝ := l.sum / l.length

/-- `np.min` of a non-empty list of reals (the `[]` case is unreachable in the
modelled code, where the query set is non-empty). -/
noncomputable def minList : List ℝ → ℝ
  | [] => 0
  | x :: xs => xs.foldl min x

/-- Average cosine distance of candidate `c` to the query vectors. -/
noncomputable def avg_distance {d : ℕ} (queries : List (Fin d → ℝ)) (c : Fin d → ℝ) : ℝ :=
  avgList (queries.map fun q => cosine_distance q c)

/-- Average angle of candidate `c` to the query vectors. -/
noncomputable def avg_angle {d : ℕ} (queries : List (Fin d → ℝ)) (c : Fin d → ℝ) : ℝ :=
  avgList (queries.map fun q => angle_between_vectors q c)

/-- Minimum cosine distance of candidate `c` to any query vector. -/
noncomputable def min_dist_to_any {d : ℕ} (queries : List (Fin d → ℝ)) (c : Fin d → ℝ) : ℝ :=
  minList (queries.map fun q => cosine_distance q c)

/-- The composite ordering used by `contra_videos.sort(key=lambda x: (x[2], x[1]),
reverse=True)`: descending lexicographically by (angle, distance).  `lexGe x y` holds
when `x` may appear no later than `y`. -/
def lexGe (x y : ℕ × ℝ × ℝ) : Prop :=
  y.2.2 < x.2.2 ∨ (y.2.2 = x.2.2 ∧ y.2.1 ≤ x.2.1)

noncomputable instance : DecidableRel lexGe := fun _ _ => Classical.dec _

instance : IsTotal (ℕ × ℝ × ℝ) lexGe := by
  constructor
  intro a b
  unfold lexGe
  rcases lt_trichotomy a.2.2 b.2.2 with h | h | h
  · right
    left
    exact h
  · rcases le_total a.2.1 b.2.1 with h' | h'
    · right
      right
      exact ⟨h, h'⟩
    · left
      right
      exact ⟨h.symm, h'⟩
  · left
    left
    exact h

instance : IsTrans (ℕ × ℝ × ℝ) lexGe := by
  constructor
  intro a b c hab hbc
  unfold lexGe at *
  rcases hab with h1 | ⟨h1, h1'⟩ <;> rcases hbc with h2 | ⟨h2, h2'⟩
  · exact Or.inl (h2.trans h1)
  · exact Or.inl (h2 ▸ h1)
  · exact Or.inl (h1 ▸ h2)
  · exact Or.inr ⟨h2.trans h1, h2'.trans h1'⟩

/-- The ordering used by `results.sort(key=lambda x: x[2], reverse=True)`:
descending by angle. -/
def angGe (x y : ℕ × ℝ × ℝ) : Prop := y.2.2 ≤ x.2.2

noncomputable instance : DecidableRel angGe := fun _ _ => Classical.dec _

instance : IsTotal (ℕ × ℝ × ℝ) angGe := ⟨fun a b => le_total b.2.2 a.2.2⟩

instance : IsTrans (ℕ × ℝ × ℝ) angGe := ⟨fun _ _ _ hab hbc => hbc.trans hab⟩

/-- The filtering pass of `DistanceCalculator.find_diametrically_opposite`
(distance.py, lines 197-219): in candidate order, keep `(index, avg_distance,
avg_angle)` for every candidate whose minimum distance to any query is at least
`min_distance` and whose average angle is at least `min_angle`. -/
noncomputable def qualifying {d : ℕ} (queries cands : List (Fin d → ℝ))
    (min_distance min_angle : ℝ) : List (ℕ × ℝ × ℝ) :=
  cands.enum.filterMap fun p =>
    if min_dist_to_any queries p.2 ≥ min_distance ∧ avg_angle queries p.2 ≥ min_angle
    then some (p.1, avg_distance queries p.2, avg_angle queries p.2)
    else none

/-- `DistanceCalculator.find_diametrically_opposite` (distance.py, lines 172-224):
filter, sort descending by the (angle, distance) composite key with a stable sort,
and truncate to the first `k`. -/
noncomputable def find_diametrically_opposite {d : ℕ} (queries cands : List (Fin d → ℝ))
    (k : ℕ) (min_distance min_angle : ℝ) : List (ℕ × ℝ × ℝ) :=
  ((qualifying queries cands min_distance min_angle).insertionSort lexGe).take k

/-- `DistanceCalculator.calculate_centroid` (distance.py, lines 226-237):
`np.mean(embeddings, axis=0)`, the elementwise mean. -/
noncomputable def calculate_centroid {d : ℕ} (embeddings : List (Fin d → ℝ)) :
    Fin d → ℝ :=
  fun i => (embeddings.map fun v => v i).sum / embeddings.length

/-- `DistanceCalculator.find_opposite_to_centroid` (distance.py, lines 239-272):
score every candidate against the centroid of the queries, sort descending by angle
with a stable sort, truncate to the first `k`.  No threshold filter. -/
noncomputable def find_opposite_to_centroid {d : ℕ} (queries cands : List (Fin d → ℝ))
    (k : ℕ) : List (ℕ × ℝ × ℝ) :=
  let c := calculate_centroid queries
  ((cands.enum.map fun p =>
      (p.1, cosine_distance c p.2, angle_between_vectors c p.2)).insertionSort
    angGe).take k

end DistanceCalculator

open DistanceCalculator in
/-- C1: with a non-empty query set, `find_diametrically_opposite` returns at most `k`
results; the results are sorted descending by the composite (avg_angle, avg_distance)
key; every result is a candidate index whose minimum cosine distance to any query is
at least `min_distance` and whose average angle is at least `min_angle`, paired with
its average distance and average angle; and whenever at most `k` candidates qualify,
every qualifying candidate appears in the result (no padding, no error). -/
theorem C1_find_diametrically_opposite_spec {d : ℕ}
    (queries cands : List (Fin d → ℝ)) (k : ℕ) (min_distance min_angle : ℝ)
    (hq : queries ≠ []) :
    (find_diametrically_opposite queries cands k min_distance min_angle).length ≤ k ∧
    (find_diametrically_opposite queries cands k min_distance min_angle).Pairwise
      lexGe ∧
    (∀ e ∈ find_diametrically_opposite queries cands k min_distance min_angle,
      ∃ c, cands[e.1]? = some c ∧
        min_distance ≤ min_dist_to_any queries c ∧
        min_angle ≤ avg_angle queries c ∧
        e.2.1 = avg_distance queries c ∧ e.2.2 = avg_angle queries c) ∧
    ((qualifying queries cands min_distance min_angle).length ≤ k →
      ∀ i : ℕ, ∀ c, cands[i]? = some c →
        min_distance ≤ min_dist_to_any queries c →
        min_angle ≤ avg_angle queries c →
        (i, avg_distance queries c, avg_angle queries c) ∈
          find_diametrically_opposite queries cands k min_distance min_angle) := by
  refine ⟨?_, ?_, ?_, ?_⟩
  · unfold find_diametrically_opposite
    rw [List.length_take]
    exact min_le_left _ _
  · unfold find_diametrically_opposite
    exact (List.sorted_insertionSort lexGe _).sublist (List.take_sublist _ _)
  · intro e he
    unfold find_diametrically_opposite at he
    have he' : e ∈ (qualifying queries cands min_distance min_angle).insertionSort
        lexGe := (List.take_sublist _ _).mem he
    rw [List.mem_insertionSort] at he'
    unfold qualifying at he'
    rw [List.mem_filterMap] at he'
    obtain ⟨p, hp, hpe⟩ := he'
    by_cases hcond :
        min_dist_to_any queries p.2 ≥ min_distance ∧ avg_angle queries p.2 ≥ min_angle
    · rw [if_pos hcond] at hpe
      obtain ⟨rfl⟩ := Option.some_inj.mp hpe
      refine ⟨p.2, ?_, hcond.1, hcond.2, rfl, rfl⟩
      exact List.mem_enum_iff_getElem?.mp hp
    · rw [if_neg hcond] at hpe
      exact absurd hpe (by simp)
  · intro hlen i c hc hdist hangle
    unfold find_diametrically_opposite
    have hmem : (i, avg_distance queries c, avg_angle queries c) ∈
        qualifying queries cands min_distance min_angle := by
      unfold qualifying
      rw [List.mem_filterMap]
      refine ⟨(i, c), List.mem_enum_iff_getElem?.mpr hc, ?_⟩
      rw [if_pos ⟨hdist, hangle⟩]
    have hsortmem : (i, avg_distance queries c, avg_angle queries c) ∈
        (qualifying queries cands min_distance min_angle).insertionSort lexGe :=
      (List.mem_insertionSort lexGe).mpr hmem
    rwa [List.take_of_length_le] at *
    rw [List.length_insertionSort]
    exact hlen

open DistanceCalculator in
/-- Witness for C1: a single query (1, 0), a single candidate (-1, 0), k = 1 and the
default thresholds. -/
theorem C1_witness :
    ([![(1:ℝ), 0]] ≠ ([] : List (Fin 2 → ℝ))) ∧
      ((find_diametrically_opposite [![(1:ℝ), 0]] [![(-1:ℝ), 0]] 1 0.7 150).length ≤ 1 ∧
      (find_diametrically_opposite [![(1:ℝ), 0]] [![(-1:ℝ), 0]] 1 0.7 150).Pairwise
        lexGe ∧
      (∀ e ∈ find_diametrically_opposite [![(1:ℝ), 0]] [![(-1:ℝ), 0]] 1 0.7 150,
        ∃ c, [![(-1:ℝ), 0]][e.1]? = some c ∧
          (0.7:ℝ) ≤ min_dist_to_any [![(1:ℝ), 0]] c ∧
          (150:ℝ) ≤ avg_angle [![(1:ℝ), 0]] c ∧
          e.2.1 = avg_distance [![(1:ℝ), 0]] c ∧ e.2.2 = avg_angle [![(1:ℝ), 0]] c) ∧
      ((qualifying [![(1:ℝ), 0]] [![(-1:ℝ), 0]] 0.7 150).length ≤ 1 →
        ∀ i : ℕ, ∀ c, [![(-1:ℝ), 0]][i]? = some c →
          (0.7:ℝ) ≤ min_dist_to_any [![(1:ℝ), 0]] c →
          (150:ℝ) ≤ avg_angle [![(1:ℝ), 0]] c →
          (i, avg_distance [![(1:ℝ), 0]] c, avg_angle [![(1:ℝ), 0]] c) ∈
            find_diametrically_opposite [![(1:ℝ), 0]] [![(-1:ℝ), 0]] 1 0.7 150)) :=
  ⟨by simp, C1_find_diametrically_opposite_spec _ _ 1 0.7 150 (by simp)⟩

open DistanceCalculator in
/-- C2 (amended): with a non-empty query set, `find_opposite_to_centroid` collapses
the queries into one centroid, scores every candidate against that single point with
no threshold filter, and returns `min k m` tuples (index, distance, angle) sorted in
descending (non-strict: ties are allowed) order of angle; when all `m` candidates fit
(`m ≤ k`), every candidate's tuple appears. -/
theorem C2_find_opposite_to_centroid_spec {d : ℕ}
    (queries cands : List (Fin d → ℝ)) (k : ℕ) (hq : queries ≠ []) :
    (find_opposite_to_centroid queries cands k).length = min k cands.length ∧
    (find_opposite_to_centroid queries cands k).Pairwise angGe ∧
    (∀ e ∈ find_opposite_to_centroid queries cands k,
      ∃ c, cands[e.1]? = some c ∧
        e.2.1 = cosine_distance (calculate_centroid queries) c ∧
        e.2.2 = angle_between_vectors (calculate_centroid queries) c) ∧
    (cands.length ≤ k → ∀ i : ℕ, ∀ c, cands[i]? = some c →
      (i, cosine_distance (calculate_centroid queries) c,
        angle_between_vectors (calculate_centroid queries) c) ∈
        find_opposite_to_centroid queries cands k) := by
  refine ⟨?_, ?_, ?_, ?_⟩
  · unfold find_opposite_to_centroid
    rw [List.length_take, List.length_insertionSort, List.length_map,
      List.enum_length]
  · unfold find_opposite_to_centroid
    exact (List.sorted_insertionSort angGe _).sublist (List.take_sublist _ _)
  · intro e he
    unfold find_opposite_to_centroid at he
    have he' := (List.mem_insertionSort angGe).mp ((List.take_sublist _ _).mem he)
    rw [List.mem_map] at he'
    obtain ⟨p, hp, rfl⟩ := he'
    exact ⟨p.2, List.mem_enum_iff_getElem?.mp hp, rfl, rfl⟩
  · intro hlen i c hc
    unfold find_opposite_to_centroid
    have hmem : (i, cosine_distance (calculate_centroid queries) c,
        angle_between_vectors (calculate_centroid queries) c) ∈
        cands.enum.map fun p =>
          (p.1, cosine_distance (calculate_centroid queries) p.2,
            angle_between_vectors (calculate_centroid queries) p.2) :=
      List.mem_map.mpr ⟨(i, c), List.mem_enum_iff_getElem?.mpr hc, rfl⟩
    have hsortmem := (List.mem_insertionSort angGe).mpr hmem
    rwa [List.take_of_length_le] at *
    rw [List.length_insertionSort, List.length_map, List.enum_length]
    exact hlen

open DistanceCalculator in
/-- Witness for C2: one query (1, 0), one candidate (0, 1), k = 1. -/
theorem C2_witness :
    ([![(1:ℝ), 0]] ≠ ([] : List (Fin 2 → ℝ))) ∧
      ((find_opposite_to_centroid [![(1:ℝ), 0]] [![(0:ℝ), 1]] 1).length =
          min 1 [![(0:ℝ), 1]].length ∧
      (find_opposite_to_centroid [![(1:ℝ), 0]] [![(0:ℝ), 1]] 1).Pairwise angGe ∧
      (∀ e ∈ find_opposite_to_centroid [![(1:ℝ), 0]] [![(0:ℝ), 1]] 1,
        ∃ c, [![(0:ℝ), 1]][e.1]? = some c ∧
          e.2.1 = cosine_distance (calculate_centroid [![(1:ℝ), 0]]) c ∧
          e.2.2 = angle_between_vectors (calculate_centroid [![(1:ℝ), 0]]) c) ∧
      ([![(0:ℝ), 1]].length ≤ 1 → ∀ i : ℕ, ∀ c, [![(0:ℝ), 1]][i]? = some c →
        (i, cosine_distance (calculate_centroid [![(1:ℝ), 0]]) c,
          angle_between_vectors (calculate_centroid [![(1:ℝ), 0]]) c) ∈
          find_opposite_to_centroid [![(1:ℝ), 0]] [![(0:ℝ), 1]] 1)) :=
  ⟨by simp, C2_find_opposite_to_centroid_spec _ _ 1 (by simp)⟩

namespace DistanceCalculator

lemma calculate_centroid_single : calculate_centroid [![(1:ℝ)]] = ![(1:ℝ)] := by
  funext i
  unfold calculate_centroid
  simp

lemma similarity_one_one : cosine_similarity ![(1:ℝ)] ![(1:ℝ)] = 1 := by
  unfold cosine_similarity npNorm dotp
  rw [Fin.sum_univ_one]
  norm_num

lemma angle_one_one : angle_between_vectors ![(1:ℝ)] ![(1:ℝ)] = 0 := by
  unfold angle_between_vectors clip1
  rw [similarity_one_one]
  have h1 : max (1:ℝ) (-1) = 1 := by norm_num
  have h2 : min (1:ℝ) 1 = 1 := by norm_num
  rw [h1, h2, Real.arccos_one]
  ring

end DistanceCalculator

open DistanceCalculator in
/-- Counterexample for C2 as stated: with query (1) and the duplicate candidates
(1), (1), both returned tuples carry the same angle, so the output is not
*strictly* descending in angle. -/
theorem C2_counterexample :
    ¬ (find_opposite_to_centroid [![(1:ℝ)]] [![(1:ℝ)], ![(1:ℝ)]] 2).Pairwise
      (fun x y => y.2.2 < x.2.2) := by
  intro hp
  have hang : ∀ e ∈ find_opposite_to_centroid [![(1:ℝ)]] [![(1:ℝ)], ![(1:ℝ)]] 2,
      e.2.2 = 0 := by
    intro e he
    unfold find_opposite_to_centroid at he
    have he' := (List.mem_insertionSort angGe).mp ((List.take_sublist _ _).mem he)
    rw [List.mem_map] at he'
    obtain ⟨p, hp', rfl⟩ := he'
    have hpv : p.2 = ![(1:ℝ)] := by
      have henum : List.enum [![(1:ℝ)], ![(1:ℝ)]] = [(0, ![(1:ℝ)]), (1, ![(1:ℝ)])] :=
        rfl
      rw [henum, List.mem_cons, List.mem_singleton] at hp'
      rcases hp' with h | h
      · rw [h]
      · rw [h]
    rw [hpv, calculate_centroid_single]
    exact angle_one_one
  have hlen : (find_opposite_to_centroid [![(1:ℝ)]] [![(1:ℝ)], ![(1:ℝ)]] 2).length
      = 2 := by
    unfold find_opposite_to_centroid
    rw [List.length_take, List.length_insertionSort, List.length_map,
      List.enum_length]
    simp
  obtain ⟨a, b, hab⟩ := List.length_eq_two.mp hlen
  rw [hab] at hp hang
  have h1 : b.2.2 < a.2.2 := by
    rw [List.pairwise_cons] at hp
    exact hp.1 b (by simp)
  have h2 : a.2.2 = 0 := hang a (by simp)
  have h3 : b.2.2 = 0 := hang b (by simp)
  rw [h2, h3] at h1
  exact lt_irrefl 0 h1

namespace Encoder

/-- `not text or not text.strip()` from `VideoEmbedder.embed_text` (encoder.py,
line 43): the text is empty, or `str.strip()` removes everything, i.e. every
character is whitespace. -/
def pyBlank (t : String) : Bool := t.data.all (fun c => c.isWhitespace)

/-- `np.zeros(self.embedding_dimension)`: the dimension-sized zero vector. -/
def zeroVec (dim : ℕ) : Fin dim → ℝ := fun _ => 0

/-- `VideoEmbedder.embed_text` (encoder.py, lines 33-48), with the sentence
transformer `self.model.encode` abstracted as the collaborator `encode`.  The
second component is the log of texts passed to the model (empty when the model
call is bypassed for blank text). -/
def embed_text (dim : ℕ) (encode : String → Fin dim → ℝ) (t : String) :
    (Fin dim → ℝ) × List String :=
  if pyBlank t then (zeroVec dim, []) else (encode t, [t])

/-- The in-memory `EmbeddingCache` (encoder.py, lines 96-120) as an association
list; in the modelled flows `set` is only ever called on keys that are absent, so
cons-on-set matches dict semantics for `get`/`has`. -/
abbrev Cache (dim : ℕ) := List (String × (Fin dim → ℝ))

/-- `CachedVideoEmbedder.embed_text` (encoder.py, lines 130-137): check the cache
by raw-text key first; on a miss, compute via `VideoEmbedder.embed_text` and store
under the raw-text key.  Returns the vector, the new cache and the model-call log. -/
def cached_embed_text (dim : ℕ) (encode : String → Fin dim → ℝ)
    (cache : Cache dim) (t : String) : (Fin dim → ℝ) × Cache dim × List String :=
  match cache.lookup t with
  | some v => (v, cache, [])
  | none =>
    let r := embed_text dim encode t
    (r.1, (t, r.1) :: cache, r.2)

/-- `CachedVideoEmbedder.embed_videos` (encoder.py, lines 139-166): per record
(video_id, embedding_text), check the `"video:" + video_id` key; on a miss,
delegate to the raw-text path `embed_text` and store the result under the
video-id key; embeddings are collected in input order. -/
def embed_videos (dim : ℕ) (encode : String → Fin dim → ℝ) (cache : Cache dim) :
    List (String × String) → List (Fin dim → ℝ) × Cache dim × List String
  | [] => ([], cache, [])
  | v :: vs =>
    match cache.lookup ("video:" ++ v.1) with
    | some e =>
      let rest := embed_videos dim encode cache vs
      (e :: rest.1, rest.2.1, rest.2.2)
    | none =>
      let r := cached_embed_text dim encode cache v.2
      let rest := embed_videos dim encode (("video:" ++ v.1, r.1) :: r.2.1) vs
      (r.1 :: rest.1, rest.2.1, r.2.2 ++ rest.2.2)

/-- One call against the cached embedder: either a raw-text embedding or a batch
video embedding (the two public entry points used by the pipeline). -/
inductive EmbedOp where
  | text (t : String)
  | videos (vs : List (String × String))

/-- Thread the cache and the accumulated model-call log through one operation. -/
def runOp (dim : ℕ) (encode : String → Fin dim → ℝ)
    (st : Cache dim × List String) (op : EmbedOp) : Cache dim × List String :=
  match op with
  | .text t =>
    let r := cached_embed_text dim encode st.1 t
    (r.2.1, st.2 ++ r.2.2)
  | .videos vs =>
    let r := embed_videos dim encode st.1 vs
    (r.2.1, st.2 ++ r.2.2)

/-- Run a sequence of operations from the initial empty cache (process start). -/
def runOps (dim : ℕ) (encode : String → Fin dim → ℝ) (ops : List EmbedOp) :
    Cache dim × List String :=
  ops.foldl (runOp dim encode) ([], [])

/-- Invariant tying the cache to the model-call log: every text was encoded at
most once, every encoded text is now cached under its raw-text key, and blank
texts are never encoded. -/
def StInv {dim : ℕ} (st : Cache dim × List String) : Prop :=
  ∀ t : String,
    st.2.count t ≤ 1 ∧ (t ∈ st.2 → (st.1.lookup t).isSome) ∧
      (pyBlank t = true → t ∉ st.2)

lemma lookup_isSome_cons {dim : ℕ} (c : Cache dim) (k s : String) (v : Fin dim → ℝ)
    (h : (c.lookup s).isSome) : (((k, v) :: c).lookup s).isSome := by
  rw [List.lookup]
  cases hks : s == k
  · exact h
  · rfl

lemma cached_embed_text_log (dim : ℕ) (encode : String → Fin dim → ℝ)
    (cache : Cache dim) (t : String) :
    (cached_embed_text dim encode cache t).2.2 = [] ∨
      ((cached_embed_text dim encode cache t).2.2 = [t] ∧
        cache.lookup t = none ∧ pyBlank t = false) := by
  unfold cached_embed_text
  cases hl : cache.lookup t
  · unfold embed_text
    cases hb : pyBlank t
    · right
      simp [hl]
    · left
      simp
  · left
    rfl

lemma cached_embed_text_lookup_mono (dim : ℕ) (encode : String → Fin dim → ℝ)
    (cache : Cache dim) (t s : String) (h : (cache.lookup s).isSome) :
    (((cached_embed_text dim encode cache t).2.1).lookup s).isSome := by
  unfold cached_embed_text
  cases hl : cache.lookup t
  · exact lookup_isSome_cons _ _ _ _ h
  · exact h

lemma cached_embed_text_lookup_self (dim : ℕ) (encode : String → Fin dim → ℝ)
    (cache : Cache dim) (t : String) :
    (((cached_embed_text dim encode cache t).2.1).lookup t).isSome := by
  unfold cached_embed_text
  cases hl : cache.lookup t
  · rw [List.lookup]
    simp
  · rw [hl]
    rfl

end Encoder

namespace Encoder

lemma StInv_cons {dim : ℕ} (c : Cache dim) (l : List String) (k : String)
    (v : Fin dim → ℝ) (h : StInv (c, l)) : StInv ((k, v) :: c, l) := by
  intro t
  obtain ⟨h1, h2, h3⟩ := h t
  exact ⟨h1, fun ht => lookup_isSome_cons _ _ _ _ (h2 ht), h3⟩

lemma StInv_cached_embed_text (dim : ℕ) (encode : String → Fin dim → ℝ)
    (c : Cache dim) (l : List String) (t : String) (h : StInv (c, l)) :
    StInv ((cached_embed_text dim encode c t).2.1,
      l ++ (cached_embed_text dim encode c t).2.2) := by
  intro s
  obtain ⟨h1, h2, h3⟩ := h s
  rcases cached_embed_text_log dim encode c t with hlog | ⟨hlog, hmiss, hnb⟩
  · rw [hlog]
    refine ⟨by simpa using h1, fun hs =>
      cached_embed_text_lookup_mono dim encode c t s (h2 (by simpa using hs)),
      fun hb => by simpa using h3 hb⟩
  · rw [hlog]
    have htl : t ∉ l := by
      intro htl
      have hsome := (h t).2.1 htl
      rw [hmiss] at hsome
      simp at hsome
    refine ⟨?_, ?_, ?_⟩
    · rw [List.count_append]
      by_cases hst : s = t
      · subst hst
        rw [List.count_eq_zero.mpr htl]
        simp
      · have hz : ([t] : List String).count s = 0 := by
          rw [List.count_eq_zero]
          simp only [List.mem_singleton]
          exact hst
        rw [hz]
        simpa using h1
    · intro hs
      rcases List.mem_append.mp hs with hs | hs
      · exact cached_embed_text_lookup_mono dim encode c t s (h2 hs)
      · have hst : s = t := by simpa using hs
        subst hst
        exact cached_embed_text_lookup_self dim encode c s
    · intro hb hs
      rcases List.mem_append.mp hs with hs | hs
      · exact h3 hb hs
      · have hst : s = t := by simpa using hs
        subst hst
        rw [hb] at hnb
        simp at hnb

lemma StInv_embed_videos (dim : ℕ) (encode : String → Fin dim → ℝ) :
    ∀ (vs : List (String × String)) (c : Cache dim) (l : List String),
      StInv (c, l) →
      StInv ((embed_videos dim encode c vs).2.1,
        l ++ (embed_videos dim encode c vs).2.2)
  | [], c, l, h => by
    unfold embed_videos
    simpa using h
  | v :: vs, c, l, h => by
    unfold embed_videos
    cases hk : c.lookup ("video:" ++ v.1)
    · have h1 := StInv_cached_embed_text dim encode c l v.2 h
      have h2 := StInv_cons _ _ ("video:" ++ v.1)
        (cached_embed_text dim encode c v.2).1 h1
      have h3 := StInv_embed_videos dim encode vs _ _ h2
      simpa [List.append_assoc] using h3
    · exact StInv_embed_videos dim encode vs c l h

lemma StInv_runOp (dim : ℕ) (encode : String → Fin dim → ℝ)
    (st : Cache dim × List String) (op : EmbedOp) (h : StInv st) :
    StInv (runOp dim encode st op) := by
  cases op with
  | text t => exact StInv_cached_embed_text dim encode st.1 st.2 t h
  | videos vs => exact StInv_embed_videos dim encode vs st.1 st.2 h

lemma StInv_foldl (dim : ℕ) (encode : String → Fin dim → ℝ) :
    ∀ (ops : List EmbedOp) (st : Cache dim × List String),
      StInv st → StInv (ops.foldl (runOp dim encode) st)
  | [], _, h => h
  | op :: ops, st, h =>
    StInv_foldl dim encode ops _ (StInv_runOp dim encode st op h)

lemma StInv_runOps (dim : ℕ) (encode : String → Fin dim → ℝ) (ops : List EmbedOp) :
    StInv (runOps dim encode ops) := by
  refine StInv_foldl dim encode ops ([], []) ?_
  intro t
  refine ⟨by simp, by simp, by simp⟩

end Encoder

open Encoder in
/-- C10: across any sequence of `embed_text` / `embed_videos` calls from process
start, (i) a raw-text cache hit never invokes the model, so a video-key miss whose
text is already cached under the raw-text key causes no model call, (ii) the model
is invoked at most once per distinct text, and (iii) blank texts are never sent to
the model at all. -/
theorem C10_model_called_at_most_once_per_text (dim : ℕ)
    (encode : String → Fin dim → ℝ) (ops : List EmbedOp) :
    (∀ (cache : Cache dim) (t : String), (cache.lookup t).isSome →
      (cached_embed_text dim encode cache t).2.2 = []) ∧
    (∀ t : String, (runOps dim encode ops).2.count t ≤ 1) ∧
    (∀ t : String, pyBlank t = true → (runOps dim encode ops).2.count t = 0) := by
  refine ⟨?_, ?_, ?_⟩
  · intro cache t hsome
    unfold cached_embed_text
    cases hl : cache.lookup t
    · rw [hl] at hsome
      simp at hsome
    · rfl
  · intro t
    exact (StInv_runOps dim encode ops t).1
  · intro t hb
    exact List.count_eq_zero.mpr ((StInv_runOps dim encode ops t).2.2 hb)

open Encoder in
/-- Witness for C10: two raw-text embeddings of the same non-blank text "a" from a
fresh process produce a model-call count of at most one for "a", and the inner
hypotheses are discharged at a cached lookup and at the blank text " ". -/
theorem C10_witness :
    ((([("a", fun _ => (5:ℝ))] : Cache 1).lookup "a").isSome ∧
      (cached_embed_text 1 (fun _ _ => (7:ℝ)) [("a", fun _ => (5:ℝ))] "a").2.2 = []) ∧
    (runOps 1 (fun _ _ => (7:ℝ)) [.text "a", .text "a"]).2.count "a" ≤ 1 ∧
    (pyBlank " " = true ∧
      (runOps 1 (fun _ _ => (7:ℝ)) [.text "a", .text "a"]).2.count " " = 0) := by
  have h := C10_model_called_at_most_once_per_text 1 (fun _ _ => (7:ℝ))
    [.text "a", .text "a"]
  refine ⟨⟨by rfl, h.1 [("a", fun _ => (5:ℝ))] "a" (by rfl)⟩, h.2.1 "a",
    by decide, h.2.2 " " (by decide)⟩

open Encoder in
/-- C9: for every blank (empty or whitespace-only) input text, `embed_text` returns
the dimension-sized zero vector and does not invoke the embedding model (empty
model-call log) — a defined edge case, not an error. -/
theorem C9_blank_text_zero_vector (dim : ℕ) (encode : String → Fin dim → ℝ)
    (t : String) (hb : pyBlank t = true) :
    embed_text dim encode t = (zeroVec dim, []) := by
  unfold embed_text
  rw [hb]
  simp

open Encoder in
/-- Witness for C9: the whitespace-only text "  " in dimension 4. -/
theorem C9_witness :
    pyBlank "  " = true ∧
      embed_text 4 (fun _ _ => (3:ℝ)) "  " = (zeroVec 4, []) :=
  ⟨by decide, C9_blank_text_zero_vector 4 (fun _ _ => (3:ℝ)) "  " (by decide)⟩

open Encoder in
/-- C3 (amended): starting from a cache that does not yet hold the non-blank text
`t`, two successive `embed_text` calls on the cached embedder return identical
vectors and issue exactly one underlying model call in total (the log across both
calls is exactly `[t]`); for blank `t` the model-call total is zero instead (see the
counterexample), and no operation ever removes a cache entry. -/
theorem C3_embed_text_cached_once (dim : ℕ) (encode : String → Fin dim → ℝ)
    (cache : Cache dim) (t : String) (hmiss : cache.lookup t = none)
    (hnb : pyBlank t = false) :
    (cached_embed_text dim encode cache t).1 =
      (cached_embed_text dim encode
        (cached_embed_text dim encode cache t).2.1 t).1 ∧
    (cached_embed_text dim encode cache t).2.2 ++
      (cached_embed_text dim encode
        (cached_embed_text dim encode cache t).2.1 t).2.2 = [t] := by
  have h1 : cached_embed_text dim encode cache t =
      (encode t, (t, encode t) :: cache, [t]) := by
    unfold cached_embed_text
    rw [hmiss]
    unfold embed_text
    rw [hnb]
    simp
  have h2 : cached_embed_text dim encode ((t, encode t) :: cache) t =
      (encode t, (t, encode t) :: cache, []) := by
    unfold cached_embed_text
    rw [List.lookup]
    simp
  rw [h1]
  simp [h2]

open Encoder in
/-- Witness for C3: the non-blank text "news" from the empty cache. -/
theorem C3_witness :
    (([] : Cache 2).lookup "news" = none ∧ pyBlank "news" = false) ∧
      ((cached_embed_text 2 (fun _ _ => (1:ℝ)) [] "news").1 =
        (cached_embed_text 2 (fun _ _ => (1:ℝ))
          (cached_embed_text 2 (fun _ _ => (1:ℝ)) [] "news").2.1 "news").1 ∧
      (cached_embed_text 2 (fun _ _ => (1:ℝ)) [] "news").2.2 ++
        (cached_embed_text 2 (fun _ _ => (1:ℝ))
          (cached_embed_text 2 (fun _ _ => (1:ℝ)) [] "news").2.1 "news").2.2 =
        ["news"]) :=
  ⟨⟨by rfl, by decide⟩,
    C3_embed_text_cached_once 2 (fun _ _ => (1:ℝ)) [] "news" (by rfl) (by decide)⟩

open Encoder in
/-- Counterexample for C3 as stated: for the blank text "", calling the cached
`embed_text` twice from a fresh cache returns identical (zero) vectors but issues
zero underlying model calls, not exactly one. -/
theorem C3_counterexample :
    (cached_embed_text 1 (fun _ _ => (1:ℝ)) [] "").1 =
      (cached_embed_text 1 (fun _ _ => (1:ℝ))
        (cached_embed_text 1 (fun _ _ => (1:ℝ)) [] "").2.1 "").1 ∧
    ((cached_embed_text 1 (fun _ _ => (1:ℝ)) [] "").2.2 ++
      (cached_embed_text 1 (fun _ _ => (1:ℝ))
        (cached_embed_text 1 (fun _ _ => (1:ℝ)) [] "").2.1 "").2.2).length = 0 ∧
    ((cached_embed_text 1 (fun _ _ => (1:ℝ)) [] "").2.2 ++
      (cached_embed_text 1 (fun _ _ => (1:ℝ))
        (cached_embed_text 1 (fun _ _ => (1:ℝ)) [] "").2.1 "").2.2).length ≠ 1 := by
  refine ⟨rfl, rfl, by decide⟩

namespace ContraFeedGenerator

open DistanceCalculator

/-- The method dispatch of `ContraFeedGenerator.generate_contra_feed`
(algorithm.py, lines 144-161), given the already computed input and sample
embeddings (steps 1-3 resolve ids to embeddings through external collaborators):
`diametric` and `centroid` dispatch to the Distance Engine; any other method
raises `ValueError("Unknown method: " + method)`, modelled as `Except.error`. -/
noncomputable def generate_contra_feed {d : ℕ}
    (input_embeddings sample_embeddings : List (Fin d → ℝ))
    (num_contra_videos : ℕ) (min_distance min_angle : ℝ) (method : String) :
    Except String (List (ℕ × ℝ × ℝ)) :=
  if method = "diametric" then
    .ok (find_diametrically_opposite input_embeddings sample_embeddings
      num_contra_videos min_distance min_angle)
  else if method = "centroid" then
    .ok (find_opposite_to_centroid input_embeddings sample_embeddings
      num_contra_videos)
  else
    .error ("Unknown method: " ++ method)

end ContraFeedGenerator

open ContraFeedGenerator in
/-- C7: for every method string other than "diametric" and "centroid",
`generate_contra_feed` fails the request with the configuration error
`Unknown method: ...` instead of silently defaulting to a supported method. -/
theorem C7_unknown_method_raises {d : ℕ}
    (input_embeddings sample_embeddings : List (Fin d → ℝ))
    (num_contra_videos : ℕ) (min_distance min_angle : ℝ) (method : String)
    (h1 : method ≠ "diametric") (h2 : method ≠ "centroid") :
    generate_contra_feed input_embeddings sample_embeddings num_contra_videos
      min_distance min_angle method =
      Except.error ("Unknown method: " ++ method) := by
  unfold generate_contra_feed
  rw [if_neg h1, if_neg h2]

open ContraFeedGenerator in
/-- Witness for C7: the method "average" on a concrete one-dimensional request. -/
theorem C7_witness :
    ("average" ≠ "diametric" ∧ "average" ≠ "centroid") ∧
      generate_contra_feed ([] : List (Fin 1 → ℝ)) [] 20 0.7 150 "average" =
        Except.error ("Unknown method: " ++ "average") :=
  ⟨⟨by decide, by decide⟩,
    C7_unknown_method_raises [] [] 20 0.7 150 "average" (by decide) (by decide)⟩

namespace RandomPrefixSampler

/-- `string.ascii_letters + string.digits + '_-'`: the 64-symbol YouTube video-id
alphabet (sampler.py, line 28). -/
def YOUTUBE_CHARSET : List Char :=
  "abcdefghijklmnopqrstuvwxyzABCDEFGHIJKLMNOPQRSTUVWXYZ0123456789_-".data

lemma YOUTUBE_CHARSET_length : YOUTUBE_CHARSET.length = 64 := by decide

/-- `generate_random_prefix` (sampler.py, lines 41-48) for the `j`-th prefix search
of a run: `prefix_length = 5` characters drawn from the charset, with
`random.choice` abstracted as an arbitrary stream `rng` of indices. -/
def randomPrefixAt (rng : ℕ → Fin 64) (j : ℕ) : String :=
  ⟨(List.range 5).map fun i =>
    YOUTUBE_CHARSET.get (Fin.cast YOUTUBE_CHARSET_length.symm (rng (5 * j + i)))⟩

/-- `sample_videos_by_prefix` (sampler.py, lines 59-91): one
`search_videos(query=prefix, max_results=10)` call per random prefix, unioning the
returned ids into a set.  The result carries the id set and the log of
(query, max_results) search calls; `search` abstracts the YouTube API client. -/
def sample_videos_by_prefixes (search : String → ℕ → List String)
    (rng : ℕ → Fin 64) (num_prefixes : ℕ) : Finset String × List (String × ℕ) :=
  (List.range num_prefixes).foldl
    (fun acc j =>
      (acc.1 ∪ (search (randomPrefixAt rng j) 10).toFinset,
        acc.2 ++ [(randomPrefixAt rng j, 10)]))
    (∅, [])

/-- The hardcoded category list (sampler.py, lines 158-159). -/
def categories : List String :=
  ["music", "gaming", "news", "sports", "education", "technology",
   "science", "politics", "cooking", "travel", "fashion", "comedy"]

/-- `sample_videos_hybrid` (sampler.py, lines 122-166) with `use_trending = True`:
phase 1 random-prefix sampling, phase 2 (random-id "drunk dialing") commented out
in the source, phase 3 one `search_videos(query=category, max_results=20)` call
per category, all unioned into one id set. -/
def sample_videos_hybrid (search : String → ℕ → List String)
    (rng : ℕ → Fin 64) (num_prefixes : ℕ) : Finset String × List (String × ℕ) :=
  categories.foldl
    (fun acc c => (acc.1 ∪ (search c 20).toFinset, acc.2 ++ [(c, 20)]))
    (sample_videos_by_prefixes search rng num_prefixes)

/-- `get_diverse_sample` (sampler.py, lines 168-188): `target_size // 7` prefix
searches, then the hybrid sampler with categories enabled. -/
def get_diverse_sample (search : String → ℕ → List String)
    (rng : ℕ → Fin 64) (target_size : ℕ) : Finset String × List (String × ℕ) :=
  sample_videos_hybrid search rng (target_size / 7)

/-- Characterisation of the accumulate-union-and-log fold over any item list. -/
lemma foldl_union_spec {β : Type} (search : String → ℕ → List String)
    (q : β → String) (m : β → ℕ) :
    ∀ (items : List β) (init : Finset String × List (String × ℕ)),
      (∀ v, v ∈ (items.foldl (fun acc b =>
          (acc.1 ∪ (search (q b) (m b)).toFinset, acc.2 ++ [(q b, m b)])) init).1 ↔
        v ∈ init.1 ∨ ∃ b ∈ items, v ∈ search (q b) (m b)) ∧
      (items.foldl (fun acc b =>
          (acc.1 ∪ (search (q b) (m b)).toFinset, acc.2 ++ [(q b, m b)])) init).2 =
        init.2 ++ items.map (fun b => (q b, m b))
  | [], init => by simp
  | b :: bs, init => by
    have ih := foldl_union_spec search q m bs
      (init.1 ∪ (search (q b) (m b)).toFinset, init.2 ++ [(q b, m b)])
    rw [List.foldl_cons]
    refine ⟨fun v => ?_, ?_⟩
    · rw [(ih.1 v)]
      simp [Finset.mem_union, List.mem_toFinset]
      tauto
    · rw [ih.2]
      simp

end RandomPrefixSampler

namespace RandomPrefixSampler

lemma sample_videos_by_prefixes_spec (search : String → ℕ → List String)
    (rng : ℕ → Fin 64) (n : ℕ) :
    (∀ v, v ∈ (sample_videos_by_prefixes search rng n).1 ↔
      ∃ j ∈ List.range n, v ∈ search (randomPrefixAt rng j) 10) ∧
    (sample_videos_by_prefixes search rng n).2 =
      (List.range n).map fun j => (randomPrefixAt rng j, 10) := by
  have h := foldl_union_spec search (randomPrefixAt rng) (fun _ => 10)
    (List.range n) (∅, [])
  refine ⟨fun v => ?_, ?_⟩
  · have h1 := h.1 v
    unfold sample_videos_by_prefixes
    rw [h1]
    simp
  · have h2 := h.2
    unfold sample_videos_by_prefixes
    rw [h2]
    simp

lemma sample_videos_hybrid_spec (search : String → ℕ → List String)
    (rng : ℕ → Fin 64) (n : ℕ) :
    (∀ v, v ∈ (sample_videos_hybrid search rng n).1 ↔
      ((∃ j ∈ List.range n, v ∈ search (randomPrefixAt rng j) 10) ∨
        ∃ c ∈ categories, v ∈ search c 20)) ∧
    (sample_videos_hybrid search rng n).2 =
      ((List.range n).map fun j => (randomPrefixAt rng j, 10)) ++
        categories.map fun c => (c, 20) := by
  have h := foldl_union_spec search (fun c => c) (fun _ => 20) categories
    (sample_videos_by_prefixes search rng n)
  have hp := sample_videos_by_prefixes_spec search rng n
  refine ⟨fun v => ?_, ?_⟩
  · have h1 := h.1 v
    unfold sample_videos_hybrid
    rw [h1, hp.1 v]
  · have h2 := h.2
    unfold sample_videos_hybrid
    rw [h2, hp.2]

end RandomPrefixSampler

open RandomPrefixSampler in
/-- C8: for every positive target size, `get_diverse_sample` issues exactly
floor(target/7) random-prefix searches — each prefix a length-5 string over the
64-symbol id alphabet, each with max_results 10 — followed by one search per each
of the twelve hardcoded category terms with max_results 20, and returns the
deduplicated union of all returned ids: an id is in the pool iff some issued
search returned it, and the pool listing has no duplicates. -/
theorem C8_get_diverse_sample_spec (search : String → ℕ → List String)
    (rng : ℕ → Fin 64) (target_size : ℕ) (hpos : 0 < target_size) :
    (get_diverse_sample search rng target_size).2 =
      ((List.range (target_size / 7)).map fun j => (randomPrefixAt rng j, 10)) ++
        categories.map (fun c => (c, 20)) ∧
    (∀ j : ℕ, (randomPrefixAt rng j).length = 5 ∧
      ∀ ch ∈ (randomPrefixAt rng j).data, ch ∈ YOUTUBE_CHARSET) ∧
    (∀ v, v ∈ (get_diverse_sample search rng target_size).1 ↔
      ((∃ j < target_size / 7, v ∈ search (randomPrefixAt rng j) 10) ∨
        ∃ c ∈ categories, v ∈ search c 20)) ∧
    (get_diverse_sample search rng target_size).1.toList.Nodup := by
  have h := sample_videos_hybrid_spec search rng (target_size / 7)
  refine ⟨?_, ?_, ?_, ?_⟩
  · unfold get_diverse_sample
    exact h.2
  · intro j
    constructor
    · unfold randomPrefixAt
      simp [String.length]
    · intro ch hch
      unfold randomPrefixAt at hch
      simp only [String.data] at hch
      rw [List.mem_map] at hch
      obtain ⟨i, _, hi⟩ := hch
      rw [← hi]
      exact List.get_mem _ _ _
  · intro v
    unfold get_diverse_sample
    rw [h.1 v]
    simp [List.mem_range]
  · exact Finset.nodup_toList _

open RandomPrefixSampler in
/-- Witness for C8: target size 14 (two prefix searches), with a search stub that
returns no hits and a constant random stream. -/
theorem C8_witness :
    0 < 14 ∧
      ((get_diverse_sample (fun _ _ => ([] : List String))
          (fun _ => (⟨0, by norm_num⟩ : Fin 64)) 14).2 =
        ((List.range (14 / 7)).map fun j =>
          (randomPrefixAt (fun _ => (⟨0, by norm_num⟩ : Fin 64)) j, 10)) ++
          categories.map (fun c => (c, 20)) ∧
      (get_diverse_sample (fun _ _ => ([] : List String))
          (fun _ => (⟨0, by norm_num⟩ : Fin 64)) 14).1.toList.Nodup) := by
  have h := C8_get_diverse_sample_spec (fun _ _ => ([] : List String))
    (fun _ => (⟨0, by norm_num⟩ : Fin 64)) 14 (by norm_num)
  exact ⟨by norm_num, h.1, h.2.2.2⟩
